import Mathlib

/-!
Shallow embedding of `src/obs_bridge_dynamic_fps.py` (class `OBSVirtualCameraBridge`).

Timestamps and Python floats are modelled as exact rationals (`Rat`); the pixel
payload of a frame is a flat `List Nat` (row-major channel triples, as produced by
`np.array` on a decoded image).  Machine-level float rounding is out of scope; the
arithmetic of the source is carried out exactly.
-/

namespace OBSBridge

/-- A decoded raster frame: width, height, and a flat pixel payload. -/
structure Frame where
  width : Nat
  height : Nat
  pix : List Nat
  deriving Repr, DecidableEq

/-- An ingest payload: either a valid compressed image (carrying the raster it
encodes) or malformed bytes that no decoder accepts. -/
inductive Payload where
  | jpeg (w h : Nat) (pix : List Nat)
  | malformed (bytes : List Nat)
  deriving Repr, DecidableEq

/-- Decoding boundary of line 117 (`PIL.Image.open` on the payload bytes): a valid
image yields its intrinsic raster (RGB channel order), malformed bytes raise,
modelled as `none`.  The decoder is an external library, specified at its
interface (spec section 4.1: payload to Frame, or DecodeError). -/
def decode : Payload → Option Frame
  | .jpeg w h pix => some { width := w, height := h, pix := pix }
  | .malformed _ => none

/-- Swap the first and third entry of each channel triple: the effect of
`cv2.cvtColor` with `COLOR_RGB2BGR` (line 118) and with `COLOR_BGR2RGB`
(line 198) on the flat pixel list. -/
def swapRB : List Nat → List Nat
  | r :: g :: b :: rest => b :: g :: r :: swapRB rest
  | l => l

/-- Channel-order conversion (`cv2.cvtColor`, lines 118 and 198): dimensions are
preserved, each pixel triple has its first and third channel swapped. -/
def cvtColor (f : Frame) : Frame :=
  { width := f.width, height := f.height, pix := swapRB f.pix }

/-- Modelled from the spec: `cv2.resize` (line 195) is an external library call;
spec section 4.5 fixes only the output dimensions ("rescale it (nearest/bilinear -
any standard resampling)"), so the model records the new dimensions and carries
the pixel payload through. -/
def resize (f : Frame) (w h : Nat) : Frame :=
  { width := w, height := h, pix := f.pix }

/-- The placeholder frame of lines 165-168: `np.zeros((height, width, 3), uint8)`;
the `cv2.putText` overlay alters only pixel contents (spec section 9: placeholder
content is not contractual), so the model keeps the zero payload. -/
def default_frame (w h : Nat) : Frame :=
  { width := w, height := h, pix := List.replicate (w * h * 3) 0 }

/-- Capacity of `self.frame_queue = queue.Queue(maxsize=10)` (line 34). -/
def queue_maxsize : Nat := 10

/-- The queue-insert fragment of `process_frame` (lines 128-137): `put_nowait`
succeeds while fewer than 10 frames are pending (append at the back, FIFO);
on `queue.Full` the oldest frame is removed by `get_nowait` and the new frame
is then inserted.  Never blocks (both operations are the `_nowait` variants). -/
def offer (q : List Frame) (f : Frame) : List Frame :=
  if q.length < queue_maxsize then q ++ [f] else q.drop 1 ++ [f]

/-- Iterated `offer`, for reasoning about several producer steps with no
intervening consumer step. -/
def offerAll (q : List Frame) (fs : List Frame) : List Frame :=
  fs.foldl offer q

/-- The frame-fetch fragment of `virtual_camera_thread` (lines 183-189):
`get_nowait` returns the oldest pending frame and remembers it as
`self.last_frame`; on `queue.Empty` the previously remembered frame is repeated,
and if none was ever delivered the placeholder is returned.  Returns the frame
delivered, the remaining queue, and the new `last_frame`. -/
def take_or_repeat (q : List Frame) (last : Option Frame) (placeholder : Frame) :
    Frame × List Frame × Option Frame :=
  match q with
  | f :: rest => (f, rest, some f)
  | [] =>
    match last with
    | some g => (g, [], some g)
    | none => (placeholder, [], none)

/-- Window bound of the rate estimator: `self.fps_detection_samples = 30`
(line 45). -/
def fps_detection_samples : Nat := 30

/-- Window update of `detect_fps` (lines 91-94): append the new interval; if the
length now exceeds 30, `pop(0)` the oldest sample. -/
def push_window (w : List Rat) (i : Rat) : List Rat :=
  if fps_detection_samples < (w ++ [i]).length then (w ++ [i]).drop 1 else w ++ [i]

/-- Arithmetic mean of a list of rationals (`statistics.mean`, line 98). -/
def mean (l : List Rat) : Rat := l.sum / (l.length : Rat)

/-- Python `round` to an integer: round half to even (used by `round(x, 1)` on
line 104, scaled by 10). -/
def pyRound (y : Rat) : Int :=
  if y - ⌊y⌋ < 1/2 then ⌊y⌋
  else if 1/2 < y - ⌊y⌋ then ⌊y⌋ + 1
  else if ⌊y⌋ % 2 = 0 then ⌊y⌋ else ⌊y⌋ + 1

/-- Python `round(x, 1)` (line 104): round to one decimal place, half to even. -/
def round1 (x : Rat) : Rat := (pyRound (x * 10) : Rat) / 10

/-- Python `int()` on a number: truncation toward zero (line 160,
`fps=int(current_fps)`). -/
def pyInt (x : Rat) : Int := if 0 ≤ x then ⌊x⌋ else ⌈x⌉

/-- The mutable ingest-side state of `OBSVirtualCameraBridge` (fields set in
`__init__`, lines 31-46) that `process_frame` and `detect_fps` read and write. -/
structure BridgeState where
  frame_queue : List Frame
  current_resolution : Nat × Nat
  detected_fps : Rat
  frame_times : List Rat
  last_frame_time : Rat
  frame_count : Nat
  last_fps_time : Rat
  deriving Repr, DecidableEq

/-- The state built by `__init__` (lines 31-46) at construction time `t0`:
empty queue, default resolution (1280, 720), default estimate 30.0 fps, empty
sample window. -/
def init_state (t0 : Rat) : BridgeState :=
  { frame_queue := []
  , current_resolution := (1280, 720)
  , detected_fps := 30
  , frame_times := []
  , last_frame_time := t0
  , frame_count := 0
  , last_fps_time := t0 }

/-- A concrete ingest state used to exercise the estimator: nine retained 0.1 s
intervals already in the window, last sample at time 0. -/
def sample_state : BridgeState :=
  { init_state 0 with frame_times := List.replicate 9 (1/10) }

/-- `detect_fps` (lines 82-108), called with the current wall-clock time:
computes the inter-arrival interval, always updates `last_frame_time`, retains
the sample only when the interval exceeds 0.001 s, maintains the 30-sample
window, and once the window holds at least 10 samples updates the published
estimate to `round(1/mean, 1)` when the candidate differs from the current
estimate by more than 2 fps.  Returns whether the estimate changed, and the
post-state. -/
def detect_fps (s : BridgeState) (current_time : Rat) : Bool × BridgeState :=
  let frame_interval := current_time - s.last_frame_time
  let s1 := { s with last_frame_time := current_time }
  if frame_interval > 1/1000 then
    let w := push_window s1.frame_times frame_interval
    let s2 := { s1 with frame_times := w }
    if 10 ≤ w.length then
      let avg_interval := mean w
      let new_fps := 1 / avg_interval
      if 2 < |new_fps - s2.detected_fps| then
        (true, { s2 with detected_fps := round1 new_fps })
      else (false, s2)
    else (false, s2)
  else (false, s1)

/-- The candidate rate of lines 98-99: the reciprocal of the mean of the sample
window as it stands after this call's window update. -/
def fps_candidate (s : BridgeState) (t : Rat) : Rat :=
  1 / mean (push_window s.frame_times (t - s.last_frame_time))

/-- `process_frame` (lines 110-149), called with the payload and the current
wall-clock time.  The whole body runs under `try/except Exception` (line 148),
so the function always returns; the Bool records whether the except branch ran
(a raised decode error, caught locally).  Statement order follows the source:
`detect_fps` first (line 114), then decode (117) and colorspace conversion
(118), resolution detection (120-126), the non-blocking queue insert (128-137),
and the 2-second diagnostic counter (139-146).  On a decode failure the raise
happens at line 117, so only the `detect_fps` mutations have been applied. -/
def process_frame_ex (s : BridgeState) (p : Payload) (t : Rat) : BridgeState × Bool :=
  let s1 := (detect_fps s t).2
  match decode p with
  | none => (s1, true)
  | some img =>
    let frame := cvtColor img
    let new_resolution := (frame.width, frame.height)
    let s2 := if new_resolution ≠ s1.current_resolution
              then { s1 with current_resolution := new_resolution } else s1
    let s3 := { s2 with frame_queue := offer s2.frame_queue frame }
    let s4 := { s3 with frame_count := s3.frame_count + 1 }
    let s5 := if 2 ≤ t - s4.last_fps_time
              then { s4 with frame_count := 0, last_fps_time := t }
              else s4
    (s5, false)

/-- The post-state of `process_frame` (lines 110-149). -/
def process_frame (s : BridgeState) (p : Payload) (t : Rat) : BridgeState :=
  (process_frame_ex s p t).1

/-- The ingest loop (lines 61-75) over a finite trace of (payload, arrival time)
events: each event is handed to `process_frame`. -/
def ingest_run (s : BridgeState) (evs : List (Payload × Rat)) : BridgeState :=
  evs.foldl (fun st e => process_frame st e.1 e.2) s

/-- The frames successfully decoded along a trace of ingest events. -/
def decodedFrames (evs : List (Payload × Rat)) : List Frame :=
  evs.filterMap fun e => decode e.1

/-- Configuration of the open `pyvirtualcam.Camera` sink (line 160). -/
structure CamConfig where
  width : Nat
  height : Nat
  fps : Int
  deriving Repr, DecidableEq

/-- The sink configuration passed to `pyvirtualcam.Camera(width=..., height=...,
fps=int(current_fps))` on line 160, from the resolution and estimate read at
thread entry (lines 157-158). -/
def open_config (resolution : Nat × Nat) (detected_fps : Rat) : CamConfig :=
  { width := resolution.1, height := resolution.2, fps := pyInt detected_fps }

/-- The per-cycle local state of `virtual_camera_thread`'s output loop
(lines 175-216): the open sink's configuration (`width`, `height` are the locals
fixed at thread entry and never reassigned; the sink handle `cam` is opened once
on line 160 and stays open for the life of the loop), the pacing target
`current_fps` with its interval `frame_time`, and the shared `last_frame`. -/
structure PacerState where
  cam : CamConfig
  current_fps : Rat
  frame_time : Rat
  last_frame : Option Frame
  deriving Repr, DecidableEq

/-- A concrete output-loop state used as a witness input: sink open at 2x2 and
30 fps, pacing at 30 fps, no frame delivered yet. -/
def sample_pacer : PacerState :=
  { cam := { width := 2, height := 2, fps := 30 }
  , current_fps := 30
  , frame_time := 1/30
  , last_frame := none }

/-- The dimension-conforming step of lines 192-195: if the fetched frame's
`shape[:2]` (height, width) differs from the sink's (height, width), the frame
is rescaled to the sink's dimensions; it is never dropped. -/
def conform (f : Frame) (w h : Nat) : Frame :=
  if (f.height, f.width) ≠ (h, w) then resize f w h else f

/-- One data cycle of the output loop (lines 175-201), given the published
estimate `d` (read of `self.detected_fps`) and the shared queue: the rate-adapt
step of lines 178-181 (adopt the published estimate for pacing when it differs
by more than 2 fps - the sink itself is not touched), the frame fetch of lines
183-189, the dimension conform of lines 192-195, the colorspace conversion of
line 198, and the emission `cam.send` of line 201.  Returns the new local state,
the frame sent, and the remaining queue. -/
def pacer_cycle (d : Rat) (q : List Frame) (s : PacerState) :
    PacerState × Frame × List Frame :=
  let cf := if 2 < |d - s.current_fps| then d else s.current_fps
  let ft := if 2 < |d - s.current_fps| then 1 / d else s.frame_time
  let taken := take_or_repeat q s.last_frame (default_frame s.cam.width s.cam.height)
  let sent := cvtColor (conform taken.1 s.cam.width s.cam.height)
  ({ cam := s.cam, current_fps := cf, frame_time := ft, last_frame := taken.2.2 },
   sent, taken.2.1)

/-- The pacing step of lines 205-216 in exact time: `last_time` is the
checkpoint taken after the previous iteration's sleep; the current iteration's
`cam.send` and its `time.time()` sample happen `d` seconds of processing later
(`current_time = last_time + d`); if the elapsed time since the checkpoint is
below `frame_time` the loop sleeps the remainder, and the new checkpoint is
taken on waking.  Returns (emission time, new checkpoint). -/
def pacer_step (frame_time last_time d : Rat) : Rat × Rat :=
  let t_send := last_time + d
  let elapsed := t_send - last_time
  if elapsed < frame_time then (t_send, t_send + (frame_time - elapsed))
  else (t_send, t_send)

/-- Emission times of successive output-loop iterations whose per-iteration
processing delays (loop top to `cam.send`) are `ds`, starting from checkpoint
`last_time`. -/
def emit_times (frame_time : Rat) (last_time : Rat) : List Rat → List Rat
  | [] => []
  | d :: ds =>
    (pacer_step frame_time last_time d).1 ::
      emit_times frame_time (pacer_step frame_time last_time d).2 ds

/-! ## Helper lemmas -/

theorem offer_lt (q : List Frame) (f : Frame) (h : q.length < queue_maxsize) :
    offer q f = q ++ [f] := by
  simp [offer, h]

theorem offerAll_append (fs : List Frame) :
    ∀ q : List Frame, q.length + fs.length ≤ queue_maxsize → offerAll q fs = q ++ fs := by
  induction fs with
  | nil => intro q _; simp [offerAll]
  | cons f fs ih =>
    intro q hq
    have hlt : q.length < queue_maxsize := by
      simp [List.length_cons] at hq; omega
    have h1 : (q ++ [f]).length + fs.length ≤ queue_maxsize := by
      simp [List.length_append] at hq ⊢; omega
    calc offerAll q (f :: fs) = offerAll (offer q f) fs := by simp [offerAll, List.foldl_cons]
      _ = offerAll (q ++ [f]) fs := by rw [offer_lt q f hlt]
      _ = (q ++ [f]) ++ fs := ih (q ++ [f]) h1
      _ = q ++ f :: fs := by simp

theorem pyRound_close (y : Rat) : |(pyRound y : Rat) - y| ≤ 1/2 := by
  have h0 : ((⌊y⌋ : Int) : Rat) ≤ y := Int.floor_le y
  have h1 : y < ((⌊y⌋ : Int) : Rat) + 1 := Int.lt_floor_add_one y
  unfold pyRound
  split_ifs with hA hB hC <;>
    · rw [abs_le]; push_cast at *; constructor <;> linarith

theorem round1_close (x : Rat) : |round1 x - x| ≤ 1/20 := by
  have h := pyRound_close (x * 10)
  rw [abs_le] at h ⊢
  unfold round1
  constructor <;> [linarith; linarith]

theorem round1_ne (x y : Rat) (h : 2 < |x - y|) : round1 x ≠ y := by
  intro heq
  have hc : |round1 x - x| ≤ 1/20 := round1_close x
  rw [heq] at hc
  rw [abs_sub_comm] at hc
  have := abs_nonneg (x - y)
  rw [abs_le] at hc
  rcases abs_cases (x - y) with ⟨he, _⟩ | ⟨he, _⟩ <;> linarith

theorem detect_fps_frame_queue (s : BridgeState) (t : Rat) :
    ((detect_fps s t).2).frame_queue = s.frame_queue := by
  simp only [detect_fps]
  split_ifs <;> rfl

theorem detect_fps_current_resolution (s : BridgeState) (t : Rat) :
    ((detect_fps s t).2).current_resolution = s.current_resolution := by
  simp only [detect_fps]
  split_ifs <;> rfl

theorem detect_fps_last_frame_time (s : BridgeState) (t : Rat) :
    ((detect_fps s t).2).last_frame_time = t := by
  simp only [detect_fps]
  split_ifs <;> rfl

/-! ## Claim theorems -/

/-- C1, counterexample: with the buffer empty, two offers with no intervening
take leave BOTH frames pending, and a subsequent take returns the frame of the
FIRST offer, not the second - `queue.Queue(maxsize=10)` is FIFO, not a
latest-wins slot. -/
theorem c1_counterexample :
    (take_or_repeat (offer (offer [] ⟨4, 4, [1]⟩) ⟨4, 4, [2]⟩) none
        (default_frame 4 4)).1 = ⟨4, 4, [1]⟩ ∧
    (⟨4, 4, [1]⟩ : Frame) ≠ ⟨4, 4, [2]⟩ := by
  decide

/-- C1, amended: `offer` never blocks (it is a total function built from the
`_nowait` queue operations); while fewer than 10 frames are pending an offer
appends at the back, so two offers with no intervening take leave both frames
pending in arrival order and a subsequent take returns the frame of the first
offer; the oldest pending frame is evicted only when the queue already holds
10 frames. -/
theorem c1_amended (f1 f2 : Frame) (last : Option Frame) (d : Frame) :
    offer (offer [] f1) f2 = [f1, f2] ∧
    (take_or_repeat (offer (offer [] f1) f2) last d).1 = f1 := by
  constructor <;> rfl

/-- C4: the consumer's frame fetch (lines 183-189) is a total function - every
exception path (`queue.Empty`) is caught - and it returns the oldest pending
frame when one exists (remembering it as last delivered), otherwise the
previously delivered frame when one exists, otherwise the placeholder frame. -/
theorem c4_take_or_repeat_total (f g : Frame) (rest : List Frame) (w h : Nat) :
    take_or_repeat (f :: rest) (some g) (default_frame w h) = (f, rest, some f) ∧
    take_or_repeat (f :: rest) none (default_frame w h) = (f, rest, some f) ∧
    take_or_repeat [] (some g) (default_frame w h) = (g, [], some g) ∧
    take_or_repeat [] none (default_frame w h) = (default_frame w h, [], none) := by
  exact ⟨rfl, rfl, rfl, rfl⟩

/-- C10: the hand-off queue is a FIFO of capacity 10 - k consecutive offers
(k at most 10) starting from an empty queue leave exactly those frames pending
in arrival order, the next take returns the first of them, an offer that finds
the queue full removes exactly the oldest frame before inserting the new one,
and such an offer keeps the occupancy at 10. -/
theorem c10_fifo_queue (f : Frame) (fs : List Frame) (hlen : fs.length ≤ 9)
    (last : Option Frame) (d : Frame) (q : List Frame) (g : Frame)
    (hq : q.length = 10) :
    offerAll [] (f :: fs) = f :: fs ∧
    (take_or_repeat (offerAll [] (f :: fs)) last d).1 = f ∧
    offer q g = q.drop 1 ++ [g] ∧
    (offer q g).length = 10 := by
  have h1 : offerAll [] (f :: fs) = f :: fs := by
    have := offerAll_append (f :: fs) []
    simp [List.length_cons] at this ⊢
    exact this (by simp [queue_maxsize]; omega)
  have h2 : offer q g = q.drop 1 ++ [g] := by
    simp [offer, queue_maxsize, hq]
  refine ⟨h1, ?_, h2, ?_⟩
  · rw [h1]; rfl
  · rw [h2]; simp [List.length_drop, hq]

theorem detect_fps_eval_pos (s : BridgeState) (t : Rat)
    (h1 : 1/1000 < t - s.last_frame_time)
    (h2 : 10 ≤ (push_window s.frame_times (t - s.last_frame_time)).length)
    (h3 : 2 < |fps_candidate s t - s.detected_fps|) :
    detect_fps s t = (true,
      { s with last_frame_time := t,
               frame_times := push_window s.frame_times (t - s.last_frame_time),
               detected_fps := round1 (fps_candidate s t) }) := by
  have h1i : (1000 : Rat)⁻¹ < t - s.last_frame_time := by rw [← one_div]; exact h1
  have h3i : 2 < |(mean (push_window s.frame_times (t - s.last_frame_time)))⁻¹
      - s.detected_fps| := by
    rw [← one_div]; simpa [fps_candidate] using h3
  simp [detect_fps, fps_candidate, h1i, h2, h3i]

theorem detect_fps_eval_neg (s : BridgeState) (t : Rat)
    (h1 : 1/1000 < t - s.last_frame_time)
    (h2 : 10 ≤ (push_window s.frame_times (t - s.last_frame_time)).length)
    (h3 : ¬ 2 < |fps_candidate s t - s.detected_fps|) :
    detect_fps s t = (false,
      { s with last_frame_time := t,
               frame_times := push_window s.frame_times (t - s.last_frame_time) }) := by
  have h1i : (1000 : Rat)⁻¹ < t - s.last_frame_time := by rw [← one_div]; exact h1
  have h3i : ¬ 2 < |(mean (push_window s.frame_times (t - s.last_frame_time)))⁻¹
      - s.detected_fps| := by
    rw [← one_div]; simpa [fps_candidate] using h3
  simp [detect_fps, fps_candidate, h1i, h2, h3i]

/-- C3: with a retained sample (interval above 0.001 s) and a post-update window
of at least 10 samples, the candidate is the reciprocal of the window mean, the
published estimate changes exactly when the candidate differs from the current
estimate by more than 2 fps, the new published value is then `round(candidate,
1)`, and `detect_fps` returns true exactly when the estimate changed. -/
theorem c3_estimator (s : BridgeState) (t : Rat)
    (h1 : 1/1000 < t - s.last_frame_time)
    (h2 : 10 ≤ (push_window s.frame_times (t - s.last_frame_time)).length) :
    ((detect_fps s t).1 = true ↔ 2 < |fps_candidate s t - s.detected_fps|) ∧
    ((detect_fps s t).1 = true →
      (detect_fps s t).2.detected_fps = round1 (fps_candidate s t)) ∧
    ((detect_fps s t).1 = false →
      (detect_fps s t).2.detected_fps = s.detected_fps) ∧
    ((detect_fps s t).1 = true ↔ (detect_fps s t).2.detected_fps ≠ s.detected_fps) := by
  by_cases h3 : 2 < |fps_candidate s t - s.detected_fps|
  · rw [detect_fps_eval_pos s t h1 h2 h3]
    refine ⟨by simpa using h3, fun _ => rfl, by simp, ?_⟩
    simpa using round1_ne (fps_candidate s t) s.detected_fps h3
  · rw [detect_fps_eval_neg s t h1 h2 h3]
    exact ⟨by simpa using h3, by simp, fun _ => rfl, by simp⟩

/-- C3, witness: nine retained 0.1 s intervals plus a tenth retained sample at
t = 0.1 make the window hold 10 samples; the candidate 10 fps differs from the
current 30 fps estimate by more than 2, so the estimate changes. -/
theorem c3_estimator_witness :
    (1/1000 < (1/10 : Rat) - sample_state.last_frame_time) ∧
    (10 ≤ (push_window sample_state.frame_times
            ((1/10 : Rat) - sample_state.last_frame_time)).length) ∧
    (((detect_fps sample_state (1/10)).1 = true ↔
        2 < |fps_candidate sample_state (1/10) - sample_state.detected_fps|) ∧
     ((detect_fps sample_state (1/10)).1 = true →
        (detect_fps sample_state (1/10)).2.detected_fps
          = round1 (fps_candidate sample_state (1/10))) ∧
     ((detect_fps sample_state (1/10)).1 = false →
        (detect_fps sample_state (1/10)).2.detected_fps = sample_state.detected_fps) ∧
     ((detect_fps sample_state (1/10)).1 = true ↔
        (detect_fps sample_state (1/10)).2.detected_fps ≠ sample_state.detected_fps)) :=
  ⟨by norm_num [sample_state, init_state],
   by norm_num [push_window, sample_state, init_state, fps_detection_samples],
   c3_estimator sample_state (1/10) (by norm_num [sample_state, init_state])
     (by norm_num [push_window, sample_state, init_state, fps_detection_samples])⟩

/-- C7, counterexample: a malformed payload arriving 1 s after construction is
still observed by the rate estimator, because `detect_fps` runs on line 114,
before the decode attempt on line 117: the sample window gains the interval even
though decoding fails. -/
theorem c7_counterexample :
    decode (Payload.malformed []) = none ∧
    (process_frame (init_state 0) (Payload.malformed []) 1).frame_times = [1] ∧
    (init_state 0).frame_times = [] := by
  refine ⟨rfl, ?_, rfl⟩
  norm_num [process_frame, process_frame_ex, decode, detect_fps, push_window,
    fps_detection_samples, init_state]

/-- C7, amended: the estimator observes the arrival time of every processed
payload - `detect_fps` runs before decoding - so a payload that fails to decode
still updates `last_frame_time`, the sample window and (possibly) the published
estimate exactly as `detect_fps` prescribes, while the hand-off queue and the
published resolution are left unchanged. -/
theorem c7_amended (s : BridgeState) (p : Payload) (t : Rat) (h : decode p = none) :
    (process_frame s p t).frame_times = ((detect_fps s t).2).frame_times ∧
    (process_frame s p t).detected_fps = ((detect_fps s t).2).detected_fps ∧
    (process_frame s p t).last_frame_time = t ∧
    (process_frame s p t).frame_queue = s.frame_queue ∧
    (process_frame s p t).current_resolution = s.current_resolution := by
  have hpf : process_frame s p t = (detect_fps s t).2 := by
    simp [process_frame, process_frame_ex, h]
  rw [hpf]
  exact ⟨rfl, rfl, detect_fps_last_frame_time s t, detect_fps_frame_queue s t,
    detect_fps_current_resolution s t⟩

/-- C7, witness. -/
theorem c7_amended_witness :
    decode (Payload.malformed [7]) = none ∧
    ((process_frame (init_state 0) (Payload.malformed [7]) 1).frame_times
        = ((detect_fps (init_state 0) 1).2).frame_times ∧
     (process_frame (init_state 0) (Payload.malformed [7]) 1).detected_fps
        = ((detect_fps (init_state 0) 1).2).detected_fps ∧
     (process_frame (init_state 0) (Payload.malformed [7]) 1).last_frame_time = 1 ∧
     (process_frame (init_state 0) (Payload.malformed [7]) 1).frame_queue
        = (init_state 0).frame_queue ∧
     (process_frame (init_state 0) (Payload.malformed [7]) 1).current_resolution
        = (init_state 0).current_resolution) :=
  ⟨rfl, c7_amended (init_state 0) (Payload.malformed [7]) 1 rfl⟩

/-- C8: when decoding fails, the exception raised at line 117 is caught by the
handler at line 148 (the Bool component of `process_frame_ex` records that the
except branch ran, and the function returns a post-state rather than
propagating anything to its caller), and the hand-off queue is left unchanged:
the bad payload is skipped and ingest continues with the next payload. -/
theorem c8_bad_payload_recovered (s : BridgeState) (p : Payload) (t : Rat)
    (h : decode p = none) :
    (process_frame_ex s p t).2 = true ∧
    (process_frame_ex s p t).1.frame_queue = s.frame_queue := by
  have hval : process_frame_ex s p t = ((detect_fps s t).2, true) := by
    simp [process_frame_ex, h]
  rw [hval]
  exact ⟨rfl, detect_fps_frame_queue s t⟩

/-- C8, witness. -/
theorem c8_bad_payload_recovered_witness :
    decode (Payload.malformed [1, 2]) = none ∧
    ((process_frame_ex (init_state 0) (Payload.malformed [1, 2]) 1).2 = true ∧
     (process_frame_ex (init_state 0) (Payload.malformed [1, 2]) 1).1.frame_queue
        = (init_state 0).frame_queue) :=
  ⟨rfl, c8_bad_payload_recovered (init_state 0) (Payload.malformed [1, 2]) 1 rfl⟩

theorem process_frame_res_none (s : BridgeState) (p : Payload) (t : Rat)
    (h : decode p = none) :
    (process_frame s p t).current_resolution = s.current_resolution := by
  simp [process_frame, process_frame_ex, h, detect_fps_current_resolution]

theorem process_frame_res_some (s : BridgeState) (p : Payload) (t : Rat) (img : Frame)
    (h : decode p = some img) :
    (process_frame s p t).current_resolution = (img.width, img.height) := by
  simp only [process_frame, process_frame_ex, h, cvtColor]
  split_ifs with h1 h2 <;>
    first
      | rfl
      | (rw [not_ne_iff] at h1
         simp_all [detect_fps_current_resolution])

theorem ingest_res_cases :
    ∀ (evs : List (Payload × Rat)) (s : BridgeState),
      (ingest_run s evs).current_resolution = s.current_resolution ∨
      ∃ f ∈ decodedFrames evs, (f.width, f.height) = (ingest_run s evs).current_resolution := by
  intro evs
  induction evs with
  | nil => intro s; left; rfl
  | cons e evs ih =>
    intro s
    have hstep : ingest_run s (e :: evs) = ingest_run (process_frame s e.1 e.2) evs := rfl
    rcases hdec : decode e.1 with _ | img
    · have hres : (process_frame s e.1 e.2).current_resolution = s.current_resolution :=
        process_frame_res_none _ _ _ hdec
      have hdf : decodedFrames (e :: evs) = decodedFrames evs := by
        simp [decodedFrames, hdec]
      rcases ih (process_frame s e.1 e.2) with h | ⟨f, hf, hfd⟩
      · left; rw [hstep, h, hres]
      · right; rw [hdf, hstep]; exact ⟨f, hf, hfd⟩
    · have hres : (process_frame s e.1 e.2).current_resolution = (img.width, img.height) :=
        process_frame_res_some _ _ _ _ hdec
      have hdf : decodedFrames (e :: evs) = img :: decodedFrames evs := by
        simp [decodedFrames, hdec]
      rcases ih (process_frame s e.1 e.2) with h | ⟨f, hf, hfd⟩
      · right; rw [hdf, hstep]
        exact ⟨img, List.mem_cons_self _ _, by rw [h, hres]⟩
      · right; rw [hdf, hstep]
        exact ⟨f, List.mem_cons_of_mem _ hf, hfd⟩

/-- C6, counterexample: at the initial reachable state (line 40, before any
payload arrives) the published resolution is the assumed default (1280, 720),
while no frame has been decoded - so it is not derived from any decoded frame,
and the sink of line 160 can open with it. -/
theorem c6_counterexample :
    (ingest_run (init_state 0) []).current_resolution = (1280, 720) ∧
    ¬ ∃ f ∈ decodedFrames ([] : List (Payload × Rat)),
        (f.width, f.height) = (ingest_run (init_state 0) []).current_resolution := by
  refine ⟨rfl, ?_⟩
  simp [decodedFrames]

/-- C6, amended: at every reachable ingest state the published resolution is
either the startup default (1280, 720) of line 40 or the (width, height) of a
frame that was actually decoded along the trace; the assumed default is itself
reachable (before the first successful decode), which is the only failure of
"never assumed". -/
theorem c6_amended (t0 : Rat) (evs : List (Payload × Rat)) :
    (ingest_run (init_state t0) evs).current_resolution = (1280, 720) ∨
    ∃ f ∈ decodedFrames evs,
      (f.width, f.height) = (ingest_run (init_state t0) evs).current_resolution := by
  rcases ingest_res_cases evs (init_state t0) with h | h
  · left; rw [h]; rfl
  · right; exact h

theorem conform_width (f : Frame) (w h : Nat) : (conform f w h).width = w := by
  unfold conform
  split_ifs with hne
  · rfl
  · rw [not_ne_iff, Prod.mk.injEq] at hne
    exact hne.2

theorem conform_height (f : Frame) (w h : Nat) : (conform f w h).height = h := by
  unfold conform
  split_ifs with hne
  · rfl
  · rw [not_ne_iff, Prod.mk.injEq] at hne
    exact hne.1

theorem pacer_cycle_sent_dims (d : Rat) (q : List Frame) (s : PacerState) :
    (pacer_cycle d q s).2.1.width = s.cam.width ∧
    (pacer_cycle d q s).2.1.height = s.cam.height := by
  constructor <;> simp [pacer_cycle, cvtColor, conform_width, conform_height]

/-- C2, counterexample: with the sink open at 2x2 and 30 fps and the published
rate estimate at 60 fps (a difference far beyond 2.0 fps), the output cycle
leaves the sink configuration untouched - the loop only re-targets its own
pacing variables and never closes or reopens the camera (the sink is opened
once on line 160; cf. the TODO on line 194). -/
theorem c2_counterexample :
    (pacer_cycle 60 [] sample_pacer).1.cam = sample_pacer.cam ∧
    sample_pacer.cam.fps = 30 ∧
    (2 : Rat) < |60 - sample_pacer.current_fps| := by
  refine ⟨rfl, rfl, ?_⟩
  rw [show |(60 : Rat) - sample_pacer.current_fps| = 30 by
    norm_num [sample_pacer, abs_of_nonneg]]
  norm_num

/-- C2, amended: when the published rate estimate differs from the pacer's
current target by more than 2.0 fps, the cycle adopts the new rate for pacing
only (`current_fps := detected`, `frame_time := 1/detected`, lines 178-181); the
sink configuration is never changed (no close, no reopen), and the frame
actually emitted is conformed to the sink's fixed dimensions by rescaling
(lines 192-195). -/
theorem c2_amended (d : Rat) (q : List Frame) (s : PacerState)
    (h : 2 < |d - s.current_fps|) :
    (pacer_cycle d q s).1.cam = s.cam ∧
    (pacer_cycle d q s).1.current_fps = d ∧
    (pacer_cycle d q s).1.frame_time = 1 / d ∧
    (pacer_cycle d q s).2.1.width = s.cam.width ∧
    (pacer_cycle d q s).2.1.height = s.cam.height := by
  refine ⟨rfl, ?_, ?_, (pacer_cycle_sent_dims d q s).1, (pacer_cycle_sent_dims d q s).2⟩
  · simp [pacer_cycle, h]
  · simp [pacer_cycle, h]

/-- C2, witness. -/
theorem c2_amended_witness :
    ((2 : Rat) < |60 - sample_pacer.current_fps|) ∧
    ((pacer_cycle 60 [] sample_pacer).1.cam = sample_pacer.cam ∧
     (pacer_cycle 60 [] sample_pacer).1.current_fps = 60 ∧
     (pacer_cycle 60 [] sample_pacer).1.frame_time = 1 / 60 ∧
     (pacer_cycle 60 [] sample_pacer).2.1.width = sample_pacer.cam.width ∧
     (pacer_cycle 60 [] sample_pacer).2.1.height = sample_pacer.cam.height) :=
  ⟨by rw [show |(60 : Rat) - sample_pacer.current_fps| = 30 by
        norm_num [sample_pacer, abs_of_nonneg]]
      norm_num,
   c2_amended 60 [] sample_pacer
     (by rw [show |(60 : Rat) - sample_pacer.current_fps| = 30 by
           norm_num [sample_pacer, abs_of_nonneg]]
         norm_num)⟩

/-- C9, counterexample: line 160 passes `fps=int(current_fps)` - truncation
toward zero - so an estimate of 23.9 fps opens the sink at 23 fps, while
rounding to the nearest integer gives 24. -/
theorem c9_counterexample :
    (open_config (1280, 720) (239/10)).fps = 23 ∧
    pyRound (239/10) = 24 ∧
    (23 : Int) ≠ 24 := by
  refine ⟨?_, ?_, by decide⟩
  · norm_num [open_config, pyInt]
  · norm_num [pyRound]

/-- C9, amended: the target fps passed to the sink on first open is the
estimate truncated toward zero (`int()`), which for the nonnegative estimates
that occur is its floor - a value in (estimate - 1, estimate] - and not the
nearest integer. -/
theorem c9_amended (resolution : Nat × Nat) (d : Rat) (h : 0 ≤ d) :
    (open_config resolution d).fps = ⌊d⌋ ∧
    ((open_config resolution d).fps : Rat) ≤ d ∧
    d - 1 < ((open_config resolution d).fps : Rat) := by
  have hfps : (open_config resolution d).fps = ⌊d⌋ := by
    simp [open_config, pyInt, h]
  refine ⟨hfps, ?_, ?_⟩
  · rw [hfps]; exact_mod_cast Int.floor_le d
  · rw [hfps]; exact Int.sub_one_lt_floor d

/-- C9, witness. -/
theorem c9_amended_witness :
    ((0 : Rat) ≤ 239/10) ∧
    ((open_config (640, 480) (239/10)).fps = ⌊(239/10 : Rat)⌋ ∧
     ((open_config (640, 480) (239/10)).fps : Rat) ≤ 239/10 ∧
     (239/10 : Rat) - 1 < ((open_config (640, 480) (239/10)).fps : Rat)) :=
  ⟨by norm_num, c9_amended (640, 480) (239/10) (by norm_num)⟩

theorem pacer_step_fst (ft L d : Rat) : (pacer_step ft L d).1 = L + d := by
  simp only [pacer_step]
  split_ifs <;> rfl

theorem pacer_step_snd_ge (ft L d : Rat) : L + ft ≤ (pacer_step ft L d).2 := by
  simp only [pacer_step]
  split_ifs with h
  · dsimp only
    linarith
  · dsimp only
    push_neg at h
    linarith

/-- C5, counterexample: with frame_time = 1 s (target 1 fps) and checkpoint 0,
an iteration whose processing takes a full second (emission at t = 1, no sleep)
followed by an instantaneous iteration (emission immediately at the new
checkpoint, again t = 1) gives two consecutive emissions 0 s apart - far below
the target interval even allowing a scheduling tolerance of half the interval.
The sleep of lines 212-216 is anchored to the post-sleep checkpoint, not to the
previous emission. -/
theorem c5_counterexample :
    emit_times 1 0 [1, 0] = [1, 1] ∧
    ¬ ((emit_times 1 0 [1, 0]).getD 1 0 - (emit_times 1 0 [1, 0]).getD 0 0
        ≥ 1 - 1/2) := by
  have hval : emit_times 1 0 [1, 0] = [1, 1] := by
    norm_num [emit_times, pacer_step]
  refine ⟨hval, ?_⟩
  rw [hval]
  norm_num

/-- C5, amended: the pacing loop guarantees its checkpoint clock advances by at
least `frame_time` per iteration, so the (n+1)-st emission happens no earlier
than n * frame_time after the initial checkpoint - the pacer cannot sustain a
rate above target - but a single inter-emission gap can undercut `frame_time`
by up to the preceding iteration's processing delay (see the counterexample). -/
theorem c5_amended (ft L : Rat) (ds : List Rat)
    (hd : ∀ d ∈ ds, 0 ≤ d) (n : Nat) (t : Rat)
    (hn : (emit_times ft L ds).get? n = some t) :
    L + n * ft ≤ t := by
  induction ds generalizing L n with
  | nil => simp [emit_times] at hn
  | cons d ds ih =>
    have hstep : emit_times ft L (d :: ds)
        = (pacer_step ft L d).1 :: emit_times ft (pacer_step ft L d).2 ds := rfl
    match n with
    | 0 =>
      rw [hstep] at hn
      simp only [List.get?] at hn
      have ht : t = L + d := by
        rw [← pacer_step_fst ft L d]
        exact (Option.some.inj hn).symm
      have hd0 : 0 ≤ d := hd d (List.mem_cons_self _ _)
      rw [ht]
      push_cast
      linarith
    | Nat.succ m =>
      rw [hstep] at hn
      simp only [List.get?] at hn
      have hm := ih (pacer_step ft L d).2 (fun x hx => hd x (List.mem_cons_of_mem _ hx)) m hn
      have hsnd := pacer_step_snd_ge ft L d
      push_cast at hm ⊢
      linarith

/-- C5, witness. -/
theorem c5_amended_witness :
    (∀ d ∈ [(0 : Rat), 0], 0 ≤ d) ∧
    ((emit_times 1 0 [0, 0]).get? 1 = some 1) ∧
    ((0 : Rat) + (1 : Nat) * 1 ≤ 1) :=
  ⟨by simp, by norm_num [emit_times, pacer_step],
   c5_amended 1 0 [0, 0] (by simp) 1 1
     (by norm_num [emit_times, pacer_step])⟩

/-- C10, witness. -/
theorem c10_fifo_queue_witness :
    offerAll [] [⟨1, 1, [1]⟩, ⟨1, 1, [2]⟩] = [⟨1, 1, [1]⟩, ⟨1, 1, [2]⟩] ∧
    (take_or_repeat (offerAll [] [⟨1, 1, [1]⟩, ⟨1, 1, [2]⟩]) none
        (default_frame 1 1)).1 = ⟨1, 1, [1]⟩ ∧
    offer (List.replicate 10 ⟨1, 1, [0]⟩) ⟨1, 1, [3]⟩
      = (List.replicate 10 (⟨1, 1, [0]⟩ : Frame)).drop 1 ++ [⟨1, 1, [3]⟩] ∧
    (offer (List.replicate 10 ⟨1, 1, [0]⟩) ⟨1, 1, [3]⟩).length = 10 :=
  c10_fifo_queue ⟨1, 1, [1]⟩ [⟨1, 1, [2]⟩] (by decide) none (default_frame 1 1)
    (List.replicate 10 ⟨1, 1, [0]⟩) ⟨1, 1, [3]⟩ (by decide)

end OBSBridge
